import Mathlib

/-!
Verification of the log-filtering engine `filterLogs`.

The source is a TypeScript function that takes a batch of log records
(`logs.allNodes`), a filter specification (`LogFilter`), and a list of
relevant step keys, and returns two derived views: `filteredNodes` (the
visible records) and `textMatchNodes` (the records matching the text query).

Shallow-embedding conventions:
- JavaScript `undefined`-able fields become `Option`; JS truthiness of an
  optional string is `jsStrTruthy` (absent or empty string is falsy) and of
  an optional number is `jsNumTruthy` (absent or zero is falsy).
- `Number(node.timestamp)` is modelled by storing the numeric value of the
  timestamp directly as an `Int`.
- `levels` is a JS object keyed by level name, modelled as an association
  list; a missing key reads as `undefined`, i.e. `Option.getD false`.
- `String.prototype.toLowerCase` is modelled by `strToLower` (ASCII
  letter-wise lowering) and `String.prototype.includes` by `jsIncludes`.
- The two collaborators imported by the source module (`logNodeLevel` from
  the level classifier and `eventTypeToDisplayType` from the display-type
  mapper) are not part of the sampled source; following the spec they are
  total pure functions, so `filterLogs` takes them as function parameters
  and theorems quantify over them.
-/

/-- One event-log record (the shape of `node` the source reads:
`__typename`, `timestamp`, `stepKey`, `eventType`, `message`). -/
structure LogNode where
  __typename : String
  timestamp : Int
  stepKey : Option String
  eventType : Option String
  message : String
deriving DecidableEq

/-- One term of `filter.logQuery`: an optional token and a value. -/
structure QueryTerm where
  token : Option String
  value : String
deriving DecidableEq

/-- The filter specification (`LogFilter` in the source). -/
structure LogFilter where
  levels : List (String × Bool)
  sinceTime : Option Int
  logQuery : List QueryTerm
  hideNonMatches : Bool
deriving DecidableEq

/-- The record batch (`LogsProviderLogs` in the source): its `allNodes`. -/
structure LogsProviderLogs where
  allNodes : List LogNode
deriving DecidableEq

/-- The pair returned by `filterLogs`. -/
structure FilterLogsResult where
  filteredNodes : List LogNode
  textMatchNodes : List LogNode
deriving DecidableEq

/-- JS truthiness of an optional string: `undefined` and `""` are falsy. -/
def jsStrTruthy : Option String → Bool
  | none => false
  | some s => !(s == "")

/-- JS truthiness of an optional number: `undefined` and `0` are falsy. -/
def jsNumTruthy : Option Int → Bool
  | none => false
  | some t => !(t == 0)

/-- ASCII lower-casing of one character (model of the per-character effect
of `toLowerCase` on the ASCII range). -/
def charToLower (c : Char) : Char :=
  if 'A' ≤ c && c ≤ 'Z' then Char.ofNat (c.toNat + 32) else c

/-- Model of `s.toLowerCase()`. -/
def strToLower (s : String) : String :=
  ⟨s.data.map charToLower⟩

/-- Whether the first list is a leading segment of the second. -/
def charsIsPrefix : List Char → List Char → Bool
  | [], _ => true
  | _ :: _, [] => false
  | a :: s, b :: t => a == b && charsIsPrefix s t

/-- Whether `sub` occurs contiguously inside `l`. -/
def charsContains (l sub : List Char) : Bool :=
  charsIsPrefix sub l ||
    match l with
    | [] => false
    | _ :: t => charsContains t sub

/-- Model of `s.includes(sub)`. -/
def jsIncludes (s sub : String) : Bool :=
  charsContains s.data sub.data

/-- The time-floor test of the source
(`filter.sinceTime && Number(node.timestamp) < filter.sinceTime`):
drops the record exactly when `sinceTime` is truthy and the timestamp is
strictly below it. -/
def timeFloorDrops (sinceTime : Option Int) (ts : Int) : Bool :=
  jsNumTruthy sinceTime && decide (ts < sinceTime.getD 0)

/-- The predicate of the first `.filter` call of `filterLogs`: reserved-kind
exclusion, then the level gate (`!filter.levels[l]` with a missing entry
reading as `undefined`), then the time floor. -/
def passesBaseFilter (logNodeLevel : LogNode → String) (filter : LogFilter)
    (node : LogNode) : Bool :=
  if node.__typename == "AssetMaterializationPlannedEvent"
      || node.__typename == "AssetCheckEvaluationPlannedEvent" then
    false
  else if !((filter.levels.lookup (logNodeLevel node)).getD false) then
    false
  else if timeFloorDrops filter.sinceTime node.timestamp then
    false
  else
    true

/-- The source's `hasTextFilter`:
`!!(filter.logQuery[0] && filter.logQuery[0].value !== '')`. -/
def hasTextFilter (filter : LogFilter) : Bool :=
  match filter.logQuery with
  | [] => false
  | f :: _ => !(f.value == "")

/-- The body of the `every` callback: evaluate one query term against one
record. An absent optional field (or an empty string, which is falsy in JS)
fails the term rather than erroring; an unrecognized token falls through to
the case-insensitive message-substring test. -/
def evalQueryTerm (eventTypeToDisplayType : String → String)
    (filterStepKeys : List String) (node : LogNode) (f : QueryTerm) : Bool :=
  if f.token == some "query" then
    jsStrTruthy node.stepKey && filterStepKeys.contains (node.stepKey.getD "")
  else if f.token == some "step" then
    jsStrTruthy node.stepKey && node.stepKey.getD "" == f.value
  else if f.token == some "type" then
    jsStrTruthy node.eventType
      && f.value == eventTypeToDisplayType (node.eventType.getD "")
  else
    jsIncludes (strToLower node.message) (strToLower f.value)

/-- The engine (`filterLogs` of the source), parameterized by the two
injected collaborators. -/
def filterLogs (logNodeLevel : LogNode → String)
    (eventTypeToDisplayType : String → String) (logs : LogsProviderLogs)
    (filter : LogFilter) (filterStepKeys : List String) : FilterLogsResult :=
  let filteredNodes := logs.allNodes.filter (passesBaseFilter logNodeLevel filter)
  let textMatchNodes :=
    if hasTextFilter filter then
      filteredNodes.filter (fun node =>
        decide (filter.logQuery.length > 0)
          && filter.logQuery.all (fun f =>
            evalQueryTerm eventTypeToDisplayType filterStepKeys node f))
    else []
  { filteredNodes :=
      if hasTextFilter filter && filter.hideNonMatches then textMatchNodes
      else filteredNodes,
    textMatchNodes := textMatchNodes }

/-- The returned `filteredNodes` field, written out: the text-matched view
when the query is active and `hideNonMatches` is on, the level/time
survivors otherwise. -/
theorem filterLogs_filteredNodes_def (cl : LogNode → String)
    (mp : String → String) (logs : LogsProviderLogs) (fil : LogFilter)
    (keys : List String) :
    (filterLogs cl mp logs fil keys).filteredNodes =
      if hasTextFilter fil && fil.hideNonMatches then
        (filterLogs cl mp logs fil keys).textMatchNodes
      else logs.allNodes.filter (passesBaseFilter cl fil) := rfl

/-- The returned `textMatchNodes` field, written out: when the query is
active it further filters the level/time survivors by the conjunction of
all query terms (the redundant `logQuery.length > 0` conjunct of the source
is absorbed, since an active query is nonempty); otherwise it is empty. -/
theorem filterLogs_textMatchNodes_def (cl : LogNode → String)
    (mp : String → String) (logs : LogsProviderLogs) (fil : LogFilter)
    (keys : List String) :
    (filterLogs cl mp logs fil keys).textMatchNodes =
      if hasTextFilter fil then
        (logs.allNodes.filter (passesBaseFilter cl fil)).filter
          (fun node => fil.logQuery.all (evalQueryTerm mp keys node))
      else [] := by
  cases hq : fil.logQuery with
  | nil =>
      have h : hasTextFilter fil = false := by simp [hasTextFilter, hq]
      simp [filterLogs, h]
  | cons f ts =>
      cases h : hasTextFilter fil with
      | false => simp [filterLogs, h]
      | true => simp [filterLogs, h, hq]

/-- An active query is exactly a nonempty `logQuery` whose head has a
nonempty value. -/
theorem hasTextFilter_iff_cons (fil : LogFilter) :
    hasTextFilter fil = true ↔
      ∃ f ts, fil.logQuery = f :: ts ∧ f.value ≠ "" := by
  cases hq : fil.logQuery with
  | nil => simp [hasTextFilter, hq]
  | cons f ts => simp [hasTextFilter, hq]

/-- The text-matched view only thins the level/time survivors. -/
theorem textMatchNodes_sublist_base (cl : LogNode → String)
    (mp : String → String) (logs : LogsProviderLogs) (fil : LogFilter)
    (keys : List String) :
    ((filterLogs cl mp logs fil keys).textMatchNodes).Sublist
      (logs.allNodes.filter (passesBaseFilter cl fil)) := by
  rw [filterLogs_textMatchNodes_def]
  split
  · exact List.filter_sublist _
  · exact List.nil_sublist _

/-- A record failing the base predicate appears in neither returned view. -/
theorem not_mem_filterLogs_of_fails_base (cl : LogNode → String)
    (mp : String → String) (logs : LogsProviderLogs) (fil : LogFilter)
    (keys : List String) (n : LogNode)
    (hp : passesBaseFilter cl fil n = false) :
    n ∉ (filterLogs cl mp logs fil keys).filteredNodes ∧
      n ∉ (filterLogs cl mp logs fil keys).textMatchNodes := by
  have hbase : n ∉ logs.allNodes.filter (passesBaseFilter cl fil) := by
    simp [List.mem_filter, hp]
  have htm : n ∉ (filterLogs cl mp logs fil keys).textMatchNodes := fun hm =>
    hbase ((textMatchNodes_sublist_base cl mp logs fil keys).subset hm)
  refine ⟨fun hm => ?_, htm⟩
  rw [filterLogs_filteredNodes_def] at hm
  by_cases hc : (hasTextFilter fil && fil.hideNonMatches) = true
  · rw [if_pos hc] at hm
    exact htm hm
  · rw [if_neg hc] at hm
    exact hbase hm

/-- The empty search string is contained in every character list. -/
theorem charsContains_nil (l : List Char) : charsContains l [] = true := by
  cases l <;> simp [charsContains, charsIsPrefix]

/-- The empty string is a substring of every string. -/
theorem jsIncludes_empty (s : String) : jsIncludes s (strToLower "") = true :=
  charsContains_nil s.data

/-- A plain info-level record used in concrete scenarios. -/
def infoRecord : LogNode :=
  { __typename := "LogMessageEvent", timestamp := 10, stepKey := none,
    eventType := none, message := "step ran" }

/-- A reserved planning record used in concrete scenarios. -/
def plannedRecord : LogNode :=
  { __typename := "AssetMaterializationPlannedEvent", timestamp := 11,
    stepKey := none, eventType := none, message := "" }

/-- A permissive filter: info level on, no time floor, no query. -/
def permissiveFilter : LogFilter :=
  { levels := [("info", true)], sinceTime := none, logQuery := [],
    hideNonMatches := false }

/-- C1: for every batch, spec, and relevant-step-key set, `textMatchNodes`
is the text-matched subset of the level/time survivors when a query is
active and empty otherwise; `filteredNodes` is `textMatchNodes` when a
query is active and `hideNonMatches` is true, and the level/time survivors
in every other case; and a query is active exactly when `logQuery` is
nonempty with a nonempty first value. -/
theorem filterLogs_result_assembly (cl : LogNode → String)
    (mp : String → String) (logs : LogsProviderLogs) (fil : LogFilter)
    (keys : List String) :
    ((filterLogs cl mp logs fil keys).textMatchNodes =
      if hasTextFilter fil then
        (logs.allNodes.filter (passesBaseFilter cl fil)).filter
          (fun node => fil.logQuery.all (evalQueryTerm mp keys node))
      else []) ∧
    ((filterLogs cl mp logs fil keys).filteredNodes =
      if hasTextFilter fil && fil.hideNonMatches then
        (filterLogs cl mp logs fil keys).textMatchNodes
      else logs.allNodes.filter (passesBaseFilter cl fil)) ∧
    (hasTextFilter fil = true ↔
      ∃ f ts, fil.logQuery = f :: ts ∧ f.value ≠ "") :=
  ⟨filterLogs_textMatchNodes_def cl mp logs fil keys,
   filterLogs_filteredNodes_def cl mp logs fil keys,
   hasTextFilter_iff_cons fil⟩

/-- C4: both returned sequences are sub-sequences of the input batch:
filtering removes elements and never reorders or duplicates. -/
theorem filterLogs_order_preservation (cl : LogNode → String)
    (mp : String → String) (logs : LogsProviderLogs) (fil : LogFilter)
    (keys : List String) :
    ((filterLogs cl mp logs fil keys).filteredNodes).Sublist logs.allNodes ∧
    ((filterLogs cl mp logs fil keys).textMatchNodes).Sublist logs.allNodes := by
  have hb : (logs.allNodes.filter (passesBaseFilter cl fil)).Sublist
      logs.allNodes := List.filter_sublist _
  have ht := (textMatchNodes_sublist_base cl mp logs fil keys).trans hb
  refine ⟨?_, ht⟩
  rw [filterLogs_filteredNodes_def]
  split
  · exact ht
  · exact hb

/-- C9: `textMatchNodes` is always an order-preserving sub-sequence of
`filteredNodes`, for both values of `hideNonMatches` and whether or not a
query is active. -/
theorem filterLogs_textMatched_subset_visible (cl : LogNode → String)
    (mp : String → String) (logs : LogsProviderLogs) (fil : LogFilter)
    (keys : List String) :
    ((filterLogs cl mp logs fil keys).textMatchNodes).Sublist
      ((filterLogs cl mp logs fil keys).filteredNodes) := by
  rw [filterLogs_filteredNodes_def]
  split
  · exact List.Sublist.refl _
  · exact textMatchNodes_sublist_base cl mp logs fil keys

/-- C3: a record of one of the two reserved planning kinds appears in
neither returned view, for every filter configuration and step-key set. -/
theorem filterLogs_reserved_kind_exclusion (cl : LogNode → String)
    (mp : String → String) (logs : LogsProviderLogs) (fil : LogFilter)
    (keys : List String) (n : LogNode)
    (h : n.__typename = "AssetMaterializationPlannedEvent" ∨
      n.__typename = "AssetCheckEvaluationPlannedEvent") :
    n ∉ (filterLogs cl mp logs fil keys).filteredNodes ∧
      n ∉ (filterLogs cl mp logs fil keys).textMatchNodes := by
  apply not_mem_filterLogs_of_fails_base
  rcases h with h | h <;> simp [passesBaseFilter, h]

/-- C3 witness: a concrete planned record is excluded from the visible view
even under a fully permissive filter. -/
theorem filterLogs_reserved_kind_exclusion_witness :
    plannedRecord ∉
      (filterLogs (fun _ => "info") (fun e => e) ⟨[plannedRecord]⟩
        permissiveFilter []).filteredNodes :=
  (filterLogs_reserved_kind_exclusion (fun _ => "info") (fun e => e)
    ⟨[plannedRecord]⟩ permissiveFilter [] plannedRecord (Or.inl rfl)).1

/-- A record with step key "A" whose message contains "foo". -/
def stepARecord : LogNode :=
  { __typename := "LogMessageEvent", timestamp := 0, stepKey := some "A",
    eventType := none, message := "foobar" }

/-- The same record but produced by step "B". -/
def stepBRecord : LogNode :=
  { __typename := "LogMessageEvent", timestamp := 0, stepKey := some "B",
    eventType := none, message := "foobar" }

/-- A step term for "A" followed by a default term for "foo". -/
def stepFooQuery : List QueryTerm :=
  [{ token := some "step", value := "A" }, { token := none, value := "foo" }]

/-- The filter carrying `stepFooQuery` with `hideNonMatches` on. -/
def stepFooFilter : LogFilter :=
  { levels := [("info", true)], sinceTime := none, logQuery := stepFooQuery,
    hideNonMatches := true }

/-- C2: with an active query, a record is in `textMatchNodes` exactly when
it survives the level/time stage and every term of `logQuery` evaluates
true against it (a conjunction, not a disjunction); in particular the
step-"A"-plus-"foo" query matches the record from step "A" with message
"foobar" and rejects the record from step "B" with the same message. -/
theorem filterLogs_and_semantics (cl : LogNode → String)
    (mp : String → String) (logs : LogsProviderLogs) (fil : LogFilter)
    (keys : List String) (n : LogNode) (h : hasTextFilter fil = true) :
    (n ∈ (filterLogs cl mp logs fil keys).textMatchNodes ↔
      n ∈ logs.allNodes.filter (passesBaseFilter cl fil) ∧
        ∀ f ∈ fil.logQuery, evalQueryTerm mp keys n f = true) ∧
    stepFooQuery.all (evalQueryTerm mp keys stepARecord) = true ∧
    stepFooQuery.all (evalQueryTerm mp keys stepBRecord) = false := by
  refine ⟨?_, rfl, rfl⟩
  rw [filterLogs_textMatchNodes_def, h]
  simp only [if_true, List.mem_filter, List.all_eq_true]

/-- C2 witness: on a concrete batch holding both records, the step-"A"
record is text-matched. -/
theorem filterLogs_and_semantics_witness :
    stepARecord ∈
      (filterLogs (fun _ => "info") (fun e => e) ⟨[stepARecord, stepBRecord]⟩
        stepFooFilter []).textMatchNodes :=
  ((filterLogs_and_semantics (fun _ => "info") (fun e => e)
      ⟨[stepARecord, stepBRecord]⟩ stepFooFilter [] stepARecord rfl).1).mpr
    ⟨by decide, by decide⟩

/-- C6: a record whose classified level is mapped to `false` by
`spec.levels`, or is missing from `spec.levels` altogether, appears in
neither returned view — a missing level entry behaves exactly like one set
to off. -/
theorem filterLogs_level_gate (cl : LogNode → String) (mp : String → String)
    (logs : LogsProviderLogs) (fil : LogFilter) (keys : List String)
    (n : LogNode)
    (h : fil.levels.lookup (cl n) = some false ∨
      fil.levels.lookup (cl n) = none) :
    n ∉ (filterLogs cl mp logs fil keys).filteredNodes ∧
      n ∉ (filterLogs cl mp logs fil keys).textMatchNodes := by
  apply not_mem_filterLogs_of_fails_base
  have hl : (fil.levels.lookup (cl n)).getD false = false := by
    rcases h with h | h <;> rw [h] <;> rfl
  simp [passesBaseFilter, hl]

/-- C6 witness: a concrete info record is dropped by a filter whose levels
table has no "info" entry at all. -/
theorem filterLogs_level_gate_witness :
    infoRecord ∉
      (filterLogs (fun _ => "info") (fun e => e) ⟨[infoRecord]⟩
        { levels := [("debug", true)], sinceTime := none, logQuery := [],
          hideNonMatches := false } []).filteredNodes :=
  (filterLogs_level_gate (fun _ => "info") (fun e => e) ⟨[infoRecord]⟩
    { levels := [("debug", true)], sinceTime := none, logQuery := [],
      hideNonMatches := false } [] infoRecord (Or.inr rfl)).1

/-- A record carrying a negative timestamp. -/
def lateRecord : LogNode :=
  { __typename := "LogMessageEvent", timestamp := -1, stepKey := none,
    eventType := none, message := "late" }

/-- A filter whose time floor is set to the value 0. -/
def zeroFloorFilter : LogFilter :=
  { levels := [("info", true)], sinceTime := some 0, logQuery := [],
    hideNonMatches := false }

/-- C5 counterexample: `sinceTime` is set (to 0) and the record's timestamp
-1 is strictly below it, yet the time-floor stage does not drop the record
and it stays visible — the guard tests truthiness, so a floor of 0 is
inert, contradicting the claim that any set floor drops strictly earlier
records. -/
theorem timeFloor_strict_drop_cex :
    (-1 : Int) < 0 ∧
    timeFloorDrops (some 0) (-1) = false ∧
    (filterLogs (fun _ => "info") (fun e => e) ⟨[lateRecord]⟩
      zeroFloorFilter []).filteredNodes = [lateRecord] :=
  ⟨by decide, by decide, by decide⟩

/-- C5 (amended): when `sinceTime` is set to a non-zero value, the
time-floor stage drops a record with timestamp strictly below it and keeps
one with timestamp equal to it; when `sinceTime` is absent the stage drops
nothing. -/
theorem timeFloor_boundary_amended (t ts : Int) (h : t ≠ 0) :
    (ts < t → timeFloorDrops (some t) ts = true) ∧
    (ts = t → timeFloorDrops (some t) ts = false) ∧
    timeFloorDrops none ts = false := by
  refine ⟨fun hlt => ?_, fun he => ?_, rfl⟩
  · simp [timeFloorDrops, jsNumTruthy, h, hlt]
  · subst he
    simp [timeFloorDrops]

/-- C5 amended witness: with floor 5, timestamp 4 is dropped and timestamp
5 is kept. -/
theorem timeFloor_boundary_amended_witness :
    timeFloorDrops (some 5) 4 = true ∧ timeFloorDrops (some 5) 5 = false :=
  ⟨(timeFloor_boundary_amended 5 4 (by decide)).1 (by decide),
   (timeFloor_boundary_amended 5 5 (by decide)).2.1 rfl⟩

/-- C7: `filterLogs` is a total function (it is a plain definition over
total data), and each structured query term fails rather than errs on a
record lacking the field it needs: a "step" term never matches a record
without a `stepKey`, a "query" (scope) term never matches a record without
a `stepKey` and matches nothing when the relevant-step-key set is empty,
and a "type" term never matches a record without an `eventType`. -/
theorem evalQueryTerm_missing_fields (mp : String → String)
    (keys : List String) (n : LogNode) (f : QueryTerm) :
    (f.token = some "step" → n.stepKey = none →
      evalQueryTerm mp keys n f = false) ∧
    (f.token = some "query" → n.stepKey = none →
      evalQueryTerm mp keys n f = false) ∧
    (f.token = some "query" → keys = [] →
      evalQueryTerm mp keys n f = false) ∧
    (f.token = some "type" → n.eventType = none →
      evalQueryTerm mp keys n f = false) := by
  refine ⟨fun ht hs => ?_, fun ht hs => ?_, fun ht hk => ?_, fun ht he => ?_⟩
  · simp [evalQueryTerm, ht, hs, jsStrTruthy]
  · simp [evalQueryTerm, ht, hs, jsStrTruthy]
  · subst hk
    simp [evalQueryTerm, ht]
  · simp [evalQueryTerm, ht, he, jsStrTruthy]

/-- C7 witness: a concrete "step" term fails on a concrete record lacking a
step key. -/
theorem evalQueryTerm_missing_fields_witness :
    evalQueryTerm (fun e => e) [] infoRecord
      { token := some "step", value := "A" } = false :=
  (evalQueryTerm_missing_fields (fun e => e) [] infoRecord
    { token := some "step", value := "A" }).1 rfl rfl

/-- C8: a term whose token is none of the recognized "query"/"step"/"type"
tokens (the untokened default case included) evaluates as the
case-insensitive substring test on the message; such a term with an empty
value trivially passes; and a default term "failed" matches the message
"Step Failed". -/
theorem evalQueryTerm_default_substring (mp : String → String)
    (keys : List String) (n : LogNode) (f : QueryTerm)
    (h1 : f.token ≠ some "query") (h2 : f.token ≠ some "step")
    (h3 : f.token ≠ some "type") :
    evalQueryTerm mp keys n f =
      jsIncludes (strToLower n.message) (strToLower f.value) ∧
    (f.value = "" → evalQueryTerm mp keys n f = true) ∧
    evalQueryTerm mp keys
      { __typename := "LogMessageEvent", timestamp := 0, stepKey := none,
        eventType := none, message := "Step Failed" }
      { token := none, value := "failed" } = true := by
  have he : evalQueryTerm mp keys n f =
      jsIncludes (strToLower n.message) (strToLower f.value) := by
    simp [evalQueryTerm, h1, h2, h3]
  refine ⟨he, fun hv => ?_, rfl⟩
  rw [he, hv]
  exact jsIncludes_empty _

/-- C8 witness: an unrecognized token falls back to the message-substring
test and matches. -/
theorem evalQueryTerm_default_substring_witness :
    evalQueryTerm (fun e => e) []
      { __typename := "LogMessageEvent", timestamp := 0, stepKey := none,
        eventType := none, message := "Step Failed" }
      { token := some "unknown", value := "failed" } = true := by
  rw [(evalQueryTerm_default_substring (fun e => e) []
    { __typename := "LogMessageEvent", timestamp := 0, stepKey := none,
      eventType := none, message := "Step Failed" }
    { token := some "unknown", value := "failed" }
    (by decide) (by decide) (by decide)).1]
  decide

/-- C10: a time floor equal to 0 is indistinguishable from an absent one —
the stage drops no record (any integer timestamp, negative included,
survives it), and `filterLogs` returns exactly what it returns with no
floor at all. -/
theorem filterLogs_zero_sinceTime (cl : LogNode → String)
    (mp : String → String) (logs : LogsProviderLogs)
    (levels : List (String × Bool)) (lq : List QueryTerm) (hnm : Bool)
    (keys : List String) (ts : Int) :
    timeFloorDrops (some 0) ts = false ∧
    filterLogs cl mp logs
        { levels := levels, sinceTime := some 0, logQuery := lq,
          hideNonMatches := hnm } keys =
      filterLogs cl mp logs
        { levels := levels, sinceTime := none, logQuery := lq,
          hideNonMatches := hnm } keys := by
  constructor
  · rfl
  · have hp : passesBaseFilter cl
        { levels := levels, sinceTime := some 0, logQuery := lq,
          hideNonMatches := hnm } =
        passesBaseFilter cl
        { levels := levels, sinceTime := none, logQuery := lq,
          hideNonMatches := hnm } := by
      funext m
      simp [passesBaseFilter, timeFloorDrops, jsNumTruthy]
    simp only [filterLogs, hp]
    rfl
